import Mathlib

/-!
Verification of the TIS-100 emulator core (`tis100/node.py`, `tis100/tis.py`).

The Python interpreter models each instruction as a generator that yields
suspension tokens to the grid scheduler.  Here the generator is embedded as an
explicit per-node state machine: `Exec` enumerates the generator's suspension
points, and `advanceNode` runs a node from its current suspension point to the
next one (exactly what one `next(node_run)` call does in `TIS.run`).
Machine integers are Lean `Int`s (Python ints are unbounded).  Faults that
would raise a Python exception (`NameError` on the unbound `NIL`, assertion
failures, missing labels, indexing an empty program) make the step function
return `none`, as does fuel exhaustion in the (reachable) case where a chain
of false conditional jumps never yields.
-/

/-- A neighboring node direction (`Node.UP/DOWN/RIGHT/LEFT`, numbered 0-3). -/
inductive Dir where
  | up
  | down
  | right
  | left
deriving DecidableEq, Repr

/-- `Node.DIRECTIONS = (UP, DOWN, LEFT, RIGHT)` — note LEFT precedes RIGHT. -/
def DIRECTIONS : List Dir := [Dir.up, Dir.down, Dir.left, Dir.right]

/-- `Node._opposite_directions`. -/
def oppositeDir : Dir → Dir
  | Dir.up => Dir.down
  | Dir.down => Dir.up
  | Dir.left => Dir.right
  | Dir.right => Dir.left

/-- A node's mode (`Node.IDLE/RUN/READ/WRITE`). -/
inductive Mode where
  | idle
  | run
  | read
  | write
deriving DecidableEq, Repr

/-- A source operand token, as dispatched by `Node._read_src`. -/
inductive Src where
  | acc
  | bak
  | nil
  | port (d : Dir)
  | any
  | lastPort
  | lit (v : Int)
deriving DecidableEq, Repr

/-- A destination operand token, as dispatched by `Node._write_dest`. -/
inductive Dst where
  | acc
  | nil
  | port (d : Dir)
  | any
  | lastPort
deriving DecidableEq, Repr

/-- A compiled instruction (`compile_asm` triples, interpreted by `op_table`). -/
inductive Op where
  | nop
  | mov (s : Src) (d : Dst)
  | swp
  | sav
  | add (s : Src)
  | sub (s : Src)
  | neg
  | jmp (l : String)
  | jez (l : String)
  | jnz (l : String)
  | jgz (l : String)
  | jlz (l : String)
  | jro (s : Src)
deriving DecidableEq, Repr

/-- What the enclosing instruction does with the value once `_read_src`
finishes: the loop bodies of `_add`, `_sub`, `_jro` and `_mov`. -/
inductive RCont where
  | add
  | sub
  | jro
  | movK (d : Dst)
deriving DecidableEq, Repr

/-- The suspension points of the `Node.run` generator (where the node's
coroutine is parked between two `next()` calls from the scheduler):

* `dispatch`: at the top of the `while True` loop, about to fetch;
* `suspTail`: at a handler's final plain `yield` (also the `yield True`
  closing `_write_output`): resuming pops the top mode frame and dispatches;
* `suspReadDone v k`: at the `yield` consuming the value produced by
  `_read_src` (`yield self.acc`, `yield int(src)`, or `_read_input`'s
  `yield result`): resuming applies the instruction continuation `k` to `v`;
* `suspReadWait d k`: at the `yield` inside `_read_input`'s wait loop;
* `suspAnyWait k`: at the bare `yield` of the `ANY` polling loop;
* `suspAnyFound v k`: at `yield src` after an `ANY` poll succeeded
  (the READ frame pushed for `ANY` is popped on resume);
* `suspWriteWait d`: at the `yield` inside `_write_output`'s drain loop;
* `suspAnyWrite v`: at the bare `yield` of the `ANY` destination loop. -/
inductive Exec where
  | dispatch
  | suspTail
  | suspReadDone (v : Int) (k : RCont)
  | suspReadWait (d : Dir) (k : RCont)
  | suspAnyWait (k : RCont)
  | suspAnyFound (v : Int) (k : RCont)
  | suspWriteWait (d : Dir)
  | suspAnyWrite (v : Int)
deriving DecidableEq, Repr

/-- The per-node state (`Node.__init__`): registers, instruction pointers,
program, label map, mode stack (top at the head; Python appends/pops at the
end of `_mode`), `_last_port_dir`, the four input queues, and the suspension
point of its `run()` generator. -/
structure NodeSt where
  acc : Int := 0
  bak : Int := 0
  iptr : Nat := 0
  next_iptr : Nat := 0
  ops : List Op := []
  labels : List (String × Nat) := []
  mode_stack : List Mode := [Mode.idle]
  last_port_dir : Option Dir := none
  inputs : Dir → List Int := fun _ => []
  exec : Exec := Exec.dispatch

/-- `Node.mode`: the top of the mode stack. -/
def NodeSt.mode (n : NodeSt) : Mode := n.mode_stack.headD Mode.idle

/-- `Node.loaded`: whether the node has a program. -/
def NodeSt.loaded (n : NodeSt) : Bool := !n.ops.isEmpty

/-- Pointwise queue update used for `inputs[direction]` mutation. -/
def updInputs (f : Dir → List Int) (d : Dir) (q : List Int) : Dir → List Int :=
  fun d' => if d' = d then q else f d'

/-- The whole grid: the node list (row-major ids), the immutable neighbor map
built by `attach_node`, and the scheduler's `buffered_input` table (per node,
an association list of per-direction pending host values; dict iteration
order is the list order). -/
structure Machine where
  nodes : List NodeSt
  neighbors : Nat → Dir → Option Nat
  buffered : Nat → List (Dir × List Int) := fun _ => []

/-- Fetch node `i`. -/
def getN (m : Machine) (i : Nat) : Option NodeSt := m.nodes.get? i

/-- Replace node `i`. -/
def setN (m : Machine) (i : Nat) (n : NodeSt) : Machine :=
  { m with nodes := m.nodes.set i n }

/-- The wraparound applied by `get_next_op`: `next_iptr` is reset to 0 when it
is not less than the program length. -/
def fetchIdx (next_iptr len : Nat) : Nat := if len ≤ next_iptr then 0 else next_iptr

/-- The clamp at the tail of `_jro`:
`next_iptr = max(0, min(next_iptr + value, len(self.ops)))`. -/
def jroClamp (next_iptr : Nat) (v : Int) (len : Nat) : Nat :=
  (max 0 (min ((next_iptr : Int) + v) (len : Int))).toNat

/-- Label lookup (`self.labels[label]`, guarded by `assert label in self.labels`). -/
def lookupLabel (ls : List (String × Nat)) (l : String) : Option Nat :=
  (ls.find? (fun p => p.fst = l)).map Prod.snd

/-- The poll of `_read_src`'s `ANY` branch: the first direction in
`DIRECTIONS` order whose queue is non-empty, its head value, and the queues
with that head popped (`read_input` pops from the front). -/
def scanAnyAux (inputs : Dir → List Int) : List Dir → Option (Dir × Int × (Dir → List Int))
  | [] => none
  | d :: ds =>
    match inputs d with
    | v :: rest => some (d, v, updInputs inputs d rest)
    | [] => scanAnyAux inputs ds

/-- Poll all four directions in `DIRECTIONS` order. -/
def scanAny (inputs : Dir → List Int) : Option (Dir × Int × (Dir → List Int)) :=
  scanAnyAux inputs DIRECTIONS

/-- `_read_input(direction, blocking=True)` up to its first suspension:
push READ; if the queue is empty, park in the wait loop; otherwise pop the
front value, record `_last_port_dir`, pop READ, and park at `yield result`. -/
def readPort (n : NodeSt) (d : Dir) (k : RCont) : NodeSt :=
  match n.inputs d with
  | [] => { n with mode_stack := Mode.read :: n.mode_stack, exec := Exec.suspReadWait d k }
  | v :: rest =>
    { n with inputs := updInputs n.inputs d rest,
             last_port_dir := some d,
             exec := Exec.suspReadDone v k }

/-- `_read_src` up to its first suspension point.  `BAK` trips the assertion;
`NIL` evaluates the unbound global `NIL` (a `NameError`); `LAST` with
`_last_port_dir` unset trips `get_attached_node`'s direction assertion —
all three fault (`none`). -/
def enterRead (n : NodeSt) (s : Src) (k : RCont) : Option NodeSt :=
  match s with
  | Src.acc => some { n with exec := Exec.suspReadDone n.acc k }
  | Src.lit v => some { n with exec := Exec.suspReadDone v k }
  | Src.bak => none
  | Src.nil => none
  | Src.port d => some (readPort n d k)
  | Src.lastPort =>
    match n.last_port_dir with
    | none => none
    | some d => some (readPort n d k)
  | Src.any =>
    match scanAny n.inputs with
    | some (d, v, inputs') =>
      some { n with inputs := inputs',
                    last_port_dir := some d,
                    mode_stack := Mode.read :: n.mode_stack,
                    exec := Exec.suspAnyFound v k }
    | none =>
      some { n with mode_stack := Mode.read :: n.mode_stack,
                    exec := Exec.suspAnyWait k }

/-- Pop the top mode frame (`pop_mode`; Python pops the end of `_mode`). -/
def popMode (n : NodeSt) : NodeSt := { n with mode_stack := n.mode_stack.tail }

/-- The `ANY`-destination broadcast: one pass of `_write_dest`'s `ANY` loop.
Each non-blocking `_write_output` call unconditionally appends the value to
the peer's opposite-direction queue, records `_last_port_dir`, and — because
the queue it just appended to is necessarily non-empty — returns without
yielding `True`, so the loop moves on and the pass writes to every attached
neighbor.  Returns the machine plus the last direction written (if any). -/
def broadcastAny (v : Int) (i : Nat) : Machine → List Dir → Machine × Option Dir
  | m, [] => (m, none)
  | m, d :: ds =>
    match m.neighbors i d with
    | none => broadcastAny v i m ds
    | some j =>
      match getN m j with
      | none => broadcastAny v i m ds
      | some p =>
        let p' := { p with
          inputs := updInputs p.inputs (oppositeDir d) (p.inputs (oppositeDir d) ++ [v]) }
        let res := broadcastAny v i (setN m j p') ds
        (res.fst, some (res.snd.getD d))

/-- The outcome of one dispatch attempt: parked at a suspension point
(`done`), fell through with no yield — a conditional jump whose condition is
false — so the loop dispatches again (`again`), or faulted (`fault`). -/
inductive DispRes where
  | done (m : Machine)
  | again (m : Machine)
  | fault

/-- `get_next_op` and the dispatch prologue of `Node.run` (push RUN, fetch
with wraparound, set `iptr` and the provisional `next_iptr = iptr + 1`),
followed by the op handler run to its first suspension point.  A conditional
jump whose condition is false yields nothing: `Node.run` pops the RUN frame
and immediately dispatches the next instruction (`again`). -/
def dispatchOnce (m : Machine) (i : Nat) : DispRes :=
  match getN m i with
  | none => DispRes.fault
  | some n =>
    let ni := fetchIdx n.next_iptr n.ops.length
    match n.ops.get? ni with
    | none => DispRes.fault
    | some op =>
      let n1 : NodeSt := { n with iptr := ni, next_iptr := ni + 1,
                                  mode_stack := Mode.run :: n.mode_stack }
      match op with
      | Op.nop => DispRes.done (setN m i { n1 with exec := Exec.suspTail })
      | Op.swp =>
        DispRes.done (setN m i { n1 with acc := n1.bak, bak := n1.acc, exec := Exec.suspTail })
      | Op.sav => DispRes.done (setN m i { n1 with bak := n1.acc, exec := Exec.suspTail })
      | Op.neg => DispRes.done (setN m i { n1 with acc := -n1.acc, exec := Exec.suspTail })
      | Op.jmp l =>
        match lookupLabel n1.labels l with
        | none => DispRes.fault
        | some t => DispRes.done (setN m i { n1 with next_iptr := t, exec := Exec.suspTail })
      | Op.jez l =>
        if n1.acc = 0 then
          match lookupLabel n1.labels l with
          | none => DispRes.fault
          | some t => DispRes.done (setN m i { n1 with next_iptr := t, exec := Exec.suspTail })
        else DispRes.again (setN m i (popMode n1))
      | Op.jnz l =>
        if n1.acc = 0 then DispRes.again (setN m i (popMode n1))
        else
          match lookupLabel n1.labels l with
          | none => DispRes.fault
          | some t => DispRes.done (setN m i { n1 with next_iptr := t, exec := Exec.suspTail })
      | Op.jgz l =>
        if n1.acc > 0 then
          match lookupLabel n1.labels l with
          | none => DispRes.fault
          | some t => DispRes.done (setN m i { n1 with next_iptr := t, exec := Exec.suspTail })
        else DispRes.again (setN m i (popMode n1))
      | Op.jlz l =>
        if n1.acc < 0 then
          match lookupLabel n1.labels l with
          | none => DispRes.fault
          | some t => DispRes.done (setN m i { n1 with next_iptr := t, exec := Exec.suspTail })
        else DispRes.again (setN m i (popMode n1))
      | Op.add s =>
        match enterRead n1 s RCont.add with
        | none => DispRes.fault
        | some n2 => DispRes.done (setN m i n2)
      | Op.sub s =>
        match enterRead n1 s RCont.sub with
        | none => DispRes.fault
        | some n2 => DispRes.done (setN m i n2)
      | Op.jro s =>
        match enterRead n1 s RCont.jro with
        | none => DispRes.fault
        | some n2 => DispRes.done (setN m i n2)
      | Op.mov s d =>
        match enterRead n1 s (RCont.movK d) with
        | none => DispRes.fault
        | some n2 => DispRes.done (setN m i n2)

/-- Dispatch until a suspension point is reached, fuel-bounding the chains of
false conditional jumps that yield nothing. -/
def doDispatch : Nat -> Machine -> Nat -> Option Machine
  | 0, _, _ => none
  | Nat.succ fuel, m, i =>
    match dispatchOnce m i with
    | DispRes.done m1 => some m1
    | DispRes.again m1 => doDispatch fuel m1 i
    | DispRes.fault => none

/-- `_write_dest` for node `i` (whose current state is `n`, with the RUN frame
of the running instruction on top of its mode stack), writing value `v`.

* `ACC` stores `v` unclamped and the instruction ends (no yield);
* `NIL` discards (no yield);
* a cardinal port with no attached neighbor: `_write_output` pushes WRITE and
  returns immediately (the `# Deadlock.` branch ends the generator without
  yielding), `_mov` ends, and `Node.run`'s `pop_mode` pops that leaked WRITE
  frame — leaving the RUN frame behind — and dispatches the next instruction;
* a cardinal port with a neighbor: append `v` to the peer's opposite queue,
  record `_last_port_dir`, and park in the drain loop (the queue just gained
  `v`, so `has_inputs` holds);
* `ANY`: push WRITE, broadcast one pass, park at the loop's `yield`;
* `LAST` with `_last_port_dir` unset faults on the direction assertion. -/
def enterWrite (fuel : Nat) (m : Machine) (i : Nat) (n : NodeSt) (dst : Dst) (v : Int) :
    Option Machine :=
  match dst with
  | Dst.acc => doDispatch fuel (setN m i (popMode { n with acc := v })) i
  | Dst.nil => doDispatch fuel (setN m i (popMode n)) i
  | Dst.port d =>
    match m.neighbors i d with
    | none => doDispatch fuel (setN m i n) i
    | some j =>
      match getN m j with
      | none => none
      | some p =>
        let p' := { p with
          inputs := updInputs p.inputs (oppositeDir d) (p.inputs (oppositeDir d) ++ [v]) }
        let n' := { n with
          mode_stack := Mode.write :: n.mode_stack,
          last_port_dir := some d,
          exec := Exec.suspWriteWait d }
        some (setN (setN m j p') i n')
  | Dst.any =>
    let res := broadcastAny v i m DIRECTIONS
    match getN res.fst i with
    | none => none
    | some n0 =>
      let newLast := match res.snd with
        | some d => some d
        | none => n.last_port_dir
      some (setN res.fst i
        { n0 with
          mode_stack := Mode.write :: n.mode_stack,
          last_port_dir := newLast,
          exec := Exec.suspAnyWrite v })
  | Dst.lastPort =>
    match n.last_port_dir with
    | none => none
    | some d =>
      match m.neighbors i d with
      | none => doDispatch fuel (setN m i n) i
      | some j =>
        match getN m j with
        | none => none
        | some p =>
          let p' := { p with
            inputs := updInputs p.inputs (oppositeDir d) (p.inputs (oppositeDir d) ++ [v]) }
          let n' := { n with
            mode_stack := Mode.write :: n.mode_stack,
            last_port_dir := some d,
            exec := Exec.suspWriteWait d }
          some (setN (setN m j p') i n')

/-- Resume after `_read_src` has delivered value `v` (the node's state is `n`,
still holding the RUN frame on top): the remainder of `_add`/`_sub`/`_jro`
(which update a register or `next_iptr` — with no clamping of `acc` — and end
without another yield, falling through to the next dispatch), or `_mov`'s
hand-off to `_write_dest`. -/
def applyKont (fuel : Nat) (m : Machine) (i : Nat) (n : NodeSt) (v : Int) (k : RCont) :
    Option Machine :=
  match k with
  | RCont.add => doDispatch fuel (setN m i (popMode { n with acc := n.acc + v })) i
  | RCont.sub => doDispatch fuel (setN m i (popMode { n with acc := n.acc - v })) i
  | RCont.jro =>
    doDispatch fuel
      (setN m i (popMode { n with next_iptr := jroClamp n.next_iptr v n.ops.length })) i
  | RCont.movK dst => enterWrite fuel m i n dst v

/-- One `next(node_run)` call on node `i`: resume the node's generator from
its current suspension point and run it to the next one. -/
def advanceNode (fuel : Nat) (m : Machine) (i : Nat) : Option Machine :=
  match getN m i with
  | none => none
  | some n =>
    match n.exec with
    | Exec.dispatch => doDispatch fuel m i
    | Exec.suspTail => doDispatch fuel (setN m i (popMode n)) i
    | Exec.suspReadDone v k => applyKont fuel m i n v k
    | Exec.suspReadWait d k =>
      match n.inputs d with
      | [] => some m
      | v :: rest =>
        some (setN m i
          { n with inputs := updInputs n.inputs d rest,
                   last_port_dir := some d,
                   mode_stack := n.mode_stack.tail,
                   exec := Exec.suspReadDone v k })
    | Exec.suspAnyWait k =>
      match scanAny n.inputs with
      | none => some m
      | some (d, v, inputs') =>
        some (setN m i
          { n with inputs := inputs',
                   last_port_dir := some d,
                   exec := Exec.suspAnyFound v k })
    | Exec.suspAnyFound v k => applyKont fuel (setN m i (popMode n)) i (popMode n) v k
    | Exec.suspWriteWait d =>
      match m.neighbors i d with
      | none => none
      | some j =>
        match getN m j with
        | none => none
        | some p =>
          match p.inputs (oppositeDir d) with
          | [] => some (setN m i { n with mode_stack := n.mode_stack.tail, exec := Exec.suspTail })
          | _ :: _ => some m
    | Exec.suspAnyWrite v =>
      let res := broadcastAny v i m DIRECTIONS
      match getN res.fst i with
      | none => none
      | some n0 =>
        let newLast := match res.snd with
          | some d => some d
          | none => n0.last_port_dir
        some (setN res.fst i { n0 with last_port_dir := newLast })

/-- The ids the scheduler collects into `node_runs`: loaded nodes, in row-major
order (`TIS.run`'s list comprehension). -/
def loadedIds (m : Machine) : List Nat :=
  (List.range m.nodes.length).filter fun i =>
    match getN m i with
    | some n => n.loaded
    | none => false

/-- One pass of `injectScan` over the node's `buffered_input` entries: the
first `(direction, values)` entry with `values` non-empty and the node's
queue for that direction empty wins (`break`); its head is delivered and
removed.  Entries that fail the test are kept untouched. -/
def injectScan (inputs : Dir → List Int) :
    List (Dir × List Int) → Option (Dir × Int × List (Dir × List Int))
  | [] => none
  | (d, vs) :: rest =>
    match vs with
    | v :: vs' =>
      if inputs d = [] then
        some (d, v, (d, vs') :: rest)
      else
        match injectScan inputs rest with
        | some (d', v', rest') => some (d', v', (d, vs) :: rest')
        | none => none
    | [] =>
      match injectScan inputs rest with
      | some (d', v', rest') => some (d', v', (d, []) :: rest')
      | none => none

/-- The host-injection step of `TIS.run`, for one node within a cycle: if the
node has a `buffered_input` entry and its current mode is READ, deliver at
most one value — into the first direction whose buffered queue is non-empty
and whose input queue is empty (`write_input` appends it). -/
def injectOne (m : Machine) (i : Nat) : Machine :=
  match getN m i with
  | none => m
  | some n =>
    if m.buffered i ≠ [] ∧ n.mode = Mode.read then
      match injectScan n.inputs (m.buffered i) with
      | some (d, v, rest) =>
        let n' := { n with inputs := updInputs n.inputs d (n.inputs d ++ [v]) }
        { setN m i n' with buffered := fun i' => if i' = i then rest else m.buffered i' }
      | none => m
    else m

/-- The per-node body of the scheduler loop: host injection, then advance the
node's generator by exactly one suspension point. -/
def processNode (fuel : Nat) (m : Machine) (i : Nat) : Option Machine :=
  advanceNode fuel (injectOne m i) i

/-- Fold `processNode` over a list of node ids. -/
def cycleAux (fuel : Nat) : Machine → List Nat → Option Machine
  | m, [] => some m
  | m, i :: is =>
    match processNode fuel m i with
    | none => none
    | some m' => cycleAux fuel m' is

/-- One scheduling cycle of `TIS.run`: a full pass over the loaded nodes in
row-major order (`ops` never changes during a run, so recomputing
`loadedIds` each cycle equals the `node_runs` list computed once). -/
def cycle (fuel : Nat) (m : Machine) : Option Machine :=
  cycleAux fuel m (loadedIds m)

/-- Run `k` scheduling cycles. -/
def runCycles (fuel : Nat) : Nat → Machine → Option Machine
  | 0, m => some m
  | Nat.succ k, m =>
    match cycle fuel m with
    | none => none
    | some m' => runCycles fuel k m'

/-- Neighbor map of a two-node column: node 0 above node 1
(`attach_node(..., UP)` wiring from `TIS.__init__`, restricted to one pair). -/
def colNbrs : Nat → Dir → Option Nat
  | 0, Dir.down => some 1
  | 1, Dir.up => some 0
  | _, _ => none

/-- Writer/receiver pair: node 0 runs `NOP` then `MOV 1, DOWN`; node 1 runs
`MOV LEFT, ACC` (and so blocks forever in READ on its unattached LEFT port);
the host has buffered the value 7 for node 1's UP port. -/
def exHostClash : Machine :=
  { nodes :=
      [ { ops := [Op.nop, Op.mov (Src.lit 1) (Dst.port Dir.down)] },
        { ops := [Op.mov (Src.port Dir.left) Dst.acc] } ],
    neighbors := colNbrs,
    buffered := fun i => if i = 1 then [(Dir.up, [7])] else [] }

/-- The input queue of node `i` at direction `d`, read through an `Option`al
machine (for states produced by `runCycles`). -/
def queueAt (r : Option Machine) (i : Nat) (d : Dir) : Option (List Int) :=
  r.bind fun m => (getN m i).map fun n => n.inputs d

/-- `iptr` of node `i` through an `Option`al machine. -/
def iptrAt (r : Option Machine) (i : Nat) : Option Nat :=
  r.bind fun m => (getN m i).map fun n => n.iptr

/-- `acc` of node `i` through an `Option`al machine. -/
def accAt (r : Option Machine) (i : Nat) : Option Int :=
  r.bind fun m => (getN m i).map fun n => n.acc

/-- `bak` of node `i` through an `Option`al machine. -/
def bakAt (r : Option Machine) (i : Nat) : Option Int :=
  r.bind fun m => (getN m i).map fun n => n.bak

/-- Current mode of node `i` through an `Option`al machine. -/
def modeAt (r : Option Machine) (i : Nat) : Option Mode :=
  r.bind fun m => (getN m i).map fun n => n.mode

/-- Mode stack of node `i` through an `Option`al machine. -/
def stackAt (r : Option Machine) (i : Nat) : Option (List Mode) :=
  r.bind fun m => (getN m i).map fun n => n.mode_stack

/-- `exec` state of node `i` through an `Option`al machine. -/
def execAt (r : Option Machine) (i : Nat) : Option Exec :=
  r.bind fun m => (getN m i).map fun n => n.exec

/-- A machine holding a single node with no neighbors (a corner of the grid
with the rest unloaded, which the scheduler never touches). -/
def soloM (n : NodeSt) : Machine :=
  { nodes := [n], neighbors := fun _ _ => none }

/-- A writer mid-`MOV`: node 0 has evaluated the literal source `v` and is
parked at the read's final yield, about to enter `_write_dest(DOWN, v)`;
node 1 below already holds the queue `q` on its UP port. -/
def mkWriter (q : List Int) (v : Int) : Machine :=
  { nodes :=
      [ { ops := [Op.mov (Src.lit v) (Dst.port Dir.down)],
          iptr := 0, next_iptr := 1,
          mode_stack := [Mode.run, Mode.idle],
          exec := Exec.suspReadDone v (RCont.movK (Dst.port Dir.down)) },
        { ops := [Op.nop],
          inputs := fun d => if d = Dir.up then q else [] } ],
    neighbors := colNbrs }

/-- Solo node running `ADD v` (then `NOP`) from accumulator `a`. -/
def mkAdd (a v : Int) : Machine :=
  soloM { acc := a, ops := [Op.add (Src.lit v), Op.nop] }

/-- Solo node running `SUB v` (then `NOP`) from accumulator `a`. -/
def mkSub (a v : Int) : Machine :=
  soloM { acc := a, ops := [Op.sub (Src.lit v), Op.nop] }

/-- Solo node running `MOV v, ACC` (then `NOP`) from accumulator `a`. -/
def mkMovAcc (a v : Int) : Machine :=
  soloM { acc := a, ops := [Op.mov (Src.lit v) Dst.acc, Op.nop] }

/-- Solo node running the two-instruction program `JRO v` / `NOP`. -/
def mkJro (v : Int) : Machine :=
  soloM { ops := [Op.jro (Src.lit v), Op.nop] }

/-- Solo node (no neighbor anywhere) running `MOV 1, UP` / `NOP`: a blocking
write through an edge with no attached node. -/
def exEdgeWrite : Machine :=
  soloM { ops := [Op.mov (Src.lit 1) (Dst.port Dir.up), Op.nop] }

/-- Solo node running `MOV NIL, ACC`: evaluates the source operand `NIL`. -/
def exNilRead : Machine :=
  soloM { ops := [Op.mov Src.nil Dst.acc] }

/-- Solo node with `acc = 1` running `JEZ L` / `NOP` (label `L` at index 0):
the conditional jump's condition is false. -/
def exFalseJez : Machine :=
  soloM { acc := 1, ops := [Op.jez "L", Op.nop], labels := [("L", 0)] }

/-- Solo node running `SAV` / `SWP` / `SWP` / `NOP` from `acc = a`, `bak = b`. -/
def mkSavSwpSwp (a b : Int) : Machine :=
  soloM { acc := a, bak := b, ops := [Op.sav, Op.swp, Op.swp, Op.nop] }

/-- Running one cycle is the cycle function itself. -/
theorem runCycles_one (fuel : Nat) (m : Machine) : runCycles fuel 1 m = cycle fuel m := by
  unfold runCycles
  cases h : cycle fuel m
  · rfl
  · rfl

/-- Peel one cycle off a `runCycles` chain. -/
theorem runCycles_peel (fuel k : Nat) (m m1 : Machine) (h : cycle fuel m = some m1) :
    runCycles fuel (k + 1) m = runCycles fuel k m1 := by
  conv_lhs => rw [runCycles]
  rw [h]

/-- On a machine whose only loaded node is node 0, a cycle is just that
node's injection-and-advance step. -/
theorem cycle_single (fuel : Nat) (m : Machine) (h : loadedIds m = [0]) :
    cycle fuel m = processNode fuel m 0 := by
  unfold cycle
  rw [h]
  unfold cycleAux
  cases hp : processNode fuel m 0
  · rfl
  · rfl

/-- C1: counterexample to "every reachable input queue holds at most one
value, and a writer facing a pending value stays suspended without
enqueueing".  In `exHostClash`, cycle 2 host-injects 7 into node 1's UP queue
(node 1 is in READ — on LEFT — with an empty UP queue), and in cycle 3 node
0's blocking `MOV 1, DOWN` appends its value regardless of the pending one:
after three scheduler cycles node 1's UP queue holds the two values
`[7, 1]`. -/
theorem tis_c1_two_values_reachable :
    queueAt (runCycles 9 3 exHostClash) 1 Dir.up = some [7, 1]
      ∧ ¬ (7 :: 1 :: ([] : List Int)).length ≤ 1 := by
  constructor
  · rfl
  · decide

/-- C2: counterexample to clamping.  `ADD 1` executed from `acc = 999`
leaves `acc = 1000`, outside `[-999, 999]` (and not `clamp(999 + 1) = 999`):
`_add` runs `self.acc += value` with no clamp. -/
theorem tis_c2_acc_exceeds_range :
    accAt (runCycles 9 2 (mkAdd 999 1)) 0 = some 1000
      ∧ ¬ (1000 : Int) ≤ 999 := by
  constructor
  · rfl
  · decide

/-- C2 as amended: no clamping exists.  `ADD src` sets `acc` to exactly
`acc + eval(src)`, `SUB src` to exactly `acc - eval(src)`, and a `MOV` into
`ACC` stores the source value unchanged, for every starting accumulator and
operand value; `acc` is not confined to `[-999, 999]`. -/
theorem tis_c2_no_clamp (a v : Int) :
    accAt (runCycles 9 2 (mkAdd a v)) 0 = some (a + v)
      ∧ accAt (runCycles 9 2 (mkSub a v)) 0 = some (a - v)
      ∧ accAt (runCycles 9 2 (mkMovAcc a v)) 0 = some v := by
  exact ⟨rfl, rfl, rfl⟩

/-- C4: the code, run at the failing input.  A blocking write to a direction
with no attached neighbor does not suspend the writer: `_write_output`
returns immediately (its `# Deadlock.` branch ends the generator without a
yield), `Node.run` pops the leaked WRITE frame, and the node dispatches the
next instruction.  After two cycles of `MOV 1, UP` / `NOP` on a node with no
neighbors, the node has dispatched `NOP` (`iptr = 1`), its observable mode is
RUN — never WRITE — and a spurious RUN frame has accumulated on the mode
stack. -/
theorem tis_c4_edge_write_falls_through :
    iptrAt (runCycles 9 2 exEdgeWrite) 0 = some 1
      ∧ modeAt (runCycles 9 2 exEdgeWrite) 0 = some Mode.run
      ∧ stackAt (runCycles 9 2 exEdgeWrite) 0 = some [Mode.run, Mode.run, Mode.idle] := by
  exact ⟨rfl, rfl, rfl⟩

/-- C5: the code, run at the failing input.  Evaluating the source operand
`NIL` does not yield 0: `_read_src` executes `yield NIL` where `NIL` is an
unbound global name, so the first scheduler cycle of `MOV NIL, ACC` raises
`NameError` (modelled as `none`) instead of reaching any suspension. -/
theorem tis_c5_nil_read_faults : runCycles 9 1 exNilRead = none := by
  rfl

/-- C8: counterexample to "every dispatched instruction yields at least one
suspension before the next instruction is dispatched".  With `acc = 1`, the
handler of `JEZ L` yields nothing, so a single `next()` on the node runs
straight through the false jump and parks inside the following `NOP`: after
one advance `iptr = 1`, not 0. -/
theorem tis_c8_false_jump_counterexample :
    iptrAt (advanceNode 9 exFalseJez 0) 0 = some 1
      ∧ iptrAt (advanceNode 9 exFalseJez 0) 0 ≠ some 0 := by
  constructor
  · rfl
  · decide

/-- C9: counterexample.  From `acc = 1`, `bak = 2`, the sequence
`SAV; SWP; SWP` leaves `acc = 1` (the original `acc`), not the original
`bak = 2`: `SAV` overwrites `bak` with `acc` before the swaps. -/
theorem tis_c9_counterexample :
    accAt (runCycles 9 3 (mkSavSwpSwp 1 2)) 0 = some 1
      ∧ accAt (runCycles 9 3 (mkSavSwpSwp 1 2)) 0 ≠ some 2 := by
  constructor
  · rfl
  · decide

/-- C9 as amended: for every pair of starting values of `acc` and `bak` in
`[-999, 999]`, executing `SAV`, then `SWP`, then `SWP` leaves `acc` equal to
the original value of `acc` (and `bak` equal to it as well). -/
theorem tis_c9_sav_swp_swp_amended (a b : Int)
    (ha1 : -999 ≤ a) (ha2 : a ≤ 999) (hb1 : -999 ≤ b) (hb2 : b ≤ 999) :
    accAt (runCycles 9 3 (mkSavSwpSwp a b)) 0 = some a
      ∧ bakAt (runCycles 9 3 (mkSavSwpSwp a b)) 0 = some a := by
  exact ⟨rfl, rfl⟩

/-- Witness for C9's amended theorem at `acc = 1`, `bak = 2`. -/
theorem tis_c9_sav_swp_swp_amended_witness :
    accAt (runCycles 9 3 (mkSavSwpSwp 1 2)) 0 = some 1
      ∧ bakAt (runCycles 9 3 (mkSavSwpSwp 1 2)) 0 = some 1 := by
  exact tis_c9_sav_swp_swp_amended 1 2 (by decide) (by decide) (by decide) (by decide)

/-- C1 as amended: a blocking writer with an attached peer enqueues its value
immediately upon starting the write — even if the receiver already holds
pending values `q` on that direction, so the receiver's queue can hold more
than one value — and then remains suspended in WRITE until the receiver's
queue for that direction is empty.  For every prior queue `q` and value `v`:
advancing the writer appends `v` behind `q`, leaves the writer in WRITE mode
parked in `_write_output`'s drain loop, and a further advance (the queue
`q ++ [v]` being non-empty) leaves the machine unchanged. -/
theorem tis_c1_writer_enqueues_immediately (q : List Int) (v : Int) :
    queueAt (advanceNode 3 (mkWriter q v) 0) 1 Dir.up = some (q ++ [v])
      ∧ modeAt (advanceNode 3 (mkWriter q v) 0) 0 = some Mode.write
      ∧ execAt (advanceNode 3 (mkWriter q v) 0) 0 = some (Exec.suspWriteWait Dir.down)
      ∧ (advanceNode 3 (mkWriter q v) 0).bind (fun m1 => advanceNode 3 m1 0)
          = advanceNode 3 (mkWriter q v) 0 := by
  refine ⟨rfl, rfl, rfl, ?_⟩
  cases q
  · rfl
  · rfl

/-- The state of `mkJro v` after one scheduler cycle: the `JRO` has been
dispatched (`iptr = 0`, provisional `next_iptr = 1`, RUN pushed) and the
literal source has been evaluated; the node is parked at the read's final
yield with `_jro`'s tail still to run. -/
def mkJroMid (v : Int) : Machine :=
  soloM { iptr := 0, next_iptr := 1,
          ops := [Op.jro (Src.lit v), Op.nop],
          mode_stack := [Mode.run, Mode.idle],
          exec := Exec.suspReadDone v RCont.jro }

/-- The state of `mkJro v` right after `_jro`'s tail has clamped `next_iptr`
to `t` and `Node.run` has popped the RUN frame, about to dispatch. -/
def mkJroPost (t : Nat) (v : Int) : Machine :=
  soloM { iptr := 0, next_iptr := t,
          ops := [Op.jro (Src.lit v), Op.nop],
          mode_stack := [Mode.idle],
          exec := Exec.suspReadDone v RCont.jro }

/-- C3 as amended: `JRO src` sets `next_iptr` to the clamp of
`iptr + 1 + eval(src)` — not `iptr + eval(src)`: `_jro` adds the offset to
the already-incremented `next_iptr` — into `[0, len(program)]` with the upper
endpoint inclusive, and an overshoot (clamped to `len`) is routed to
instruction 0 by the fetch wraparound.  The last conjunct runs the
two-instruction program `JRO v` / `NOP`: after the `JRO` completes, the
instruction dispatched is the one at the wraparound of `jroClamp 1 v 2`. -/
theorem tis_c3_jro_amended (ip len : Nat) (v : Int) (hlen : 0 < len) :
    ((jroClamp (ip + 1) v len : Int) = max 0 (min ((ip : Int) + 1 + v) (len : Int)))
      ∧ jroClamp (ip + 1) v len ≤ len
      ∧ ((len : Int) ≤ (ip : Int) + 1 + v →
          jroClamp (ip + 1) v len = len ∧ fetchIdx (jroClamp (ip + 1) v len) len = 0)
      ∧ iptrAt (runCycles 9 2 (mkJro v)) 0 = some (fetchIdx (jroClamp 1 v 2) 2) := by
  refine ⟨?_, ?_, ?_, ?_⟩
  · unfold jroClamp
    push_cast
    omega
  · unfold jroClamp
    omega
  · intro hover
    have hc : jroClamp (ip + 1) v len = len := by
      unfold jroClamp
      push_cast
      omega
    refine ⟨hc, ?_⟩
    rw [hc]
    unfold fetchIdx
    simp
  · have e1 : cycle 9 (mkJro v) = some (mkJroMid v) := rfl
    have e2 : runCycles 9 2 (mkJro v) = runCycles 9 1 (mkJroMid v) :=
      runCycles_peel 9 1 _ _ e1
    have e3 : runCycles 9 1 (mkJroMid v) = cycle 9 (mkJroMid v) := runCycles_one 9 _
    have e4 : cycle 9 (mkJroMid v) = processNode 9 (mkJroMid v) 0 := cycle_single 9 _ rfl
    have e5 : processNode 9 (mkJroMid v) 0 = doDispatch 9 (mkJroPost (jroClamp 1 v 2) v) 0 :=
      rfl
    rw [e2, e3, e4, e5]
    have h3 : jroClamp 1 v 2 = 0 ∨ jroClamp 1 v 2 = 1 ∨ jroClamp 1 v 2 = 2 := by
      unfold jroClamp
      omega
    rcases h3 with h | h | h <;> rw [h] <;> rfl

/-- Witness for C3's amended theorem at `ip = 0`, `len = 2`, `v = 5`
(an overshoot: `jroClamp 1 5 2 = 2`, and fetch wraps to instruction 0). -/
theorem tis_c3_jro_amended_witness :
    ((jroClamp (0 + 1) 5 2 : Int) = max 0 (min ((0 : Int) + 1 + 5) ((2 : Nat) : Int)))
      ∧ jroClamp (0 + 1) 5 2 ≤ 2
      ∧ (((2 : Nat) : Int) ≤ (0 : Int) + 1 + 5 →
          jroClamp (0 + 1) 5 2 = 2 ∧ fetchIdx (jroClamp (0 + 1) 5 2) 2 = 0)
      ∧ iptrAt (runCycles 9 2 (mkJro 5)) 0 = some (fetchIdx (jroClamp 1 5 2) 2) :=
  tis_c3_jro_amended 0 2 5 (by decide)

/-- C3: counterexample to the claim as stated.  The claim (with the fetch
rule) predicts that `JRO 0` at `iptr = 0` re-dispatches instruction
`clamp(0 + 0) = 0`; the code computes `clamp(next_iptr + 0) = 1` and the
node dispatches instruction 1 instead. -/
theorem tis_c3_jro_counterexample :
    iptrAt (runCycles 9 2 (mkJro 0)) 0 = some 1
      ∧ iptrAt (runCycles 9 2 (mkJro 0)) 0 ≠ some 0 := by
  constructor
  · rfl
  · decide

/-- C6: an `ANY` source read polls UP, DOWN, LEFT, RIGHT in that fixed order
(`DIRECTIONS`) and commits the first direction holding a value.  For any node
parked in the `ANY` polling loop whose UP and LEFT queues both hold values,
resuming it consumes the UP head, records `last_port_dir = UP`, and parks at
the found-yield carrying the UP value; the same pick is made on first entry
to the `ANY` branch of `_read_src` (second conjunct). -/
theorem tis_c6_any_up_first (m : Machine) (i : Nat) (n : NodeSt) (k : RCont)
    (v w : Int) (q r : List Int)
    (hn : getN m i = some n) (hx : n.exec = Exec.suspAnyWait k)
    (hu : n.inputs Dir.up = v :: q) (hl : n.inputs Dir.left = w :: r) (fuel : Nat) :
    advanceNode fuel m i
      = some (setN m i
          { n with inputs := updInputs n.inputs Dir.up q,
                   last_port_dir := some Dir.up,
                   exec := Exec.suspAnyFound v k })
      ∧ enterRead n Src.any k
        = some { n with inputs := updInputs n.inputs Dir.up q,
                        last_port_dir := some Dir.up,
                        mode_stack := Mode.read :: n.mode_stack,
                        exec := Exec.suspAnyFound v k } := by
  have hscan : scanAny n.inputs = some (Dir.up, v, updInputs n.inputs Dir.up q) := by
    unfold scanAny DIRECTIONS scanAnyAux
    rw [hu]
  constructor
  · simp only [advanceNode, hn, hx, hscan]
  · simp only [enterRead, hscan]

/-- A node parked in the `ANY` polling loop of `MOV ANY, ACC`, with the
value 10 pending on UP and 20 pending on LEFT. -/
def exAnyNode : NodeSt :=
  { ops := [Op.mov Src.any Dst.acc], iptr := 0, next_iptr := 1,
    mode_stack := [Mode.read, Mode.run, Mode.idle],
    exec := Exec.suspAnyWait (RCont.movK Dst.acc),
    inputs := fun d => if d = Dir.up then [10] else if d = Dir.left then [20] else [] }

/-- Machine around `exAnyNode`. -/
def exAnyTie : Machine := soloM exAnyNode

/-- Witness for C6 at `exAnyTie`: UP and LEFT hold 10 and 20 simultaneously,
and the `ANY` read resolves to UP's 10. -/
theorem tis_c6_any_up_first_witness :
    advanceNode 9 exAnyTie 0
      = some (setN exAnyTie 0
          { exAnyNode with inputs := updInputs exAnyNode.inputs Dir.up [],
                           last_port_dir := some Dir.up,
                           exec := Exec.suspAnyFound 10 (RCont.movK Dst.acc) })
      ∧ enterRead exAnyNode Src.any (RCont.movK Dst.acc)
        = some { exAnyNode with
                   inputs := updInputs exAnyNode.inputs Dir.up [],
                   last_port_dir := some Dir.up,
                   mode_stack := Mode.read :: exAnyNode.mode_stack,
                   exec := Exec.suspAnyFound 10 (RCont.movK Dst.acc) } :=
  tis_c6_any_up_first exAnyTie 0 exAnyNode (RCont.movK Dst.acc) 10 20 [] []
    rfl rfl rfl rfl 9

/-- The input queue of node `i` at direction `d` (empty if `i` is out of
range). -/
def queueD (m : Machine) (i : Nat) (d : Dir) : List Int :=
  match getN m i with
  | some n => n.inputs d
  | none => []

/-- The current mode of node `i` (IDLE if `i` is out of range). -/
def modeD (m : Machine) (i : Nat) : Mode :=
  match getN m i with
  | some n => n.mode
  | none => Mode.idle

/-- If the buffered-input scan injects into direction `d0`, then the node's
queue for `d0` was empty — that is one half of the injection guard
`if values and not node.has_inputs(d)`. -/
theorem injectScan_src_empty (inputs : Dir → List Int) :
    ∀ (L : List (Dir × List Int)) (d0 : Dir) (v : Int) (rest : List (Dir × List Int)),
      injectScan inputs L = some (d0, v, rest) → inputs d0 = [] := by
  intro L
  induction L with
  | nil =>
    intro d0 v rest h
    simp [injectScan] at h
  | cons hd tl ih =>
    intro d0 v rest h
    obtain ⟨d, vs⟩ := hd
    cases vs with
    | nil =>
      rw [injectScan] at h
      cases hs : injectScan inputs tl with
      | none => rw [hs] at h; simp at h
      | some trip =>
        obtain ⟨d', v', r'⟩ := trip
        rw [hs] at h
        simp only [Option.some.injEq, Prod.mk.injEq] at h
        obtain ⟨h1, h2, _⟩ := h
        subst h1
        subst h2
        exact ih _ _ _ hs
    | cons v0 vs' =>
      rw [injectScan] at h
      by_cases he : inputs d = []
      · rw [if_pos he] at h
        simp only [Option.some.injEq, Prod.mk.injEq] at h
        obtain ⟨h1, _, _⟩ := h
        subst h1
        exact he
      · rw [if_neg he] at h
        cases hs : injectScan inputs tl with
        | none => rw [hs] at h; simp at h
        | some trip =>
          obtain ⟨d', v', r'⟩ := trip
          rw [hs] at h
          simp only [Option.some.injEq, Prod.mk.injEq] at h
          obtain ⟨h1, h2, _⟩ := h
          subst h1
          subst h2
          exact ih _ _ _ hs

/-- Reading back the node just replaced. -/
theorem getN_setN_eq (m : Machine) (i : Nat) (n n' : NodeSt) (h : getN m i = some n) :
    getN (setN m i n') i = some n' := by
  unfold getN setN
  have hlt : i < m.nodes.length := by
    rcases List.get?_eq_some.mp h with ⟨hl, _⟩
    exact hl
  exact List.get?_set_eq_of_lt n' hlt

/-- Replacing node `i` leaves every other node unchanged. -/
theorem getN_setN_ne (m : Machine) (i j : Nat) (n' : NodeSt) (h : i ≠ j) :
    getN (setN m i n') j = getN m j := by
  unfold getN setN
  exact List.get?_set_ne n' _ h

/-- C7: the scheduler's host-injection rule, per node `i` within a cycle.
First conjunct: the per-node body of `TIS.run` performs the injection step
and then advances the node (injection strictly before the advance).  Second
conjunct: for every direction `d`, the injection either leaves node `i`'s
queue at `d` unchanged, or — only when node `i`'s current mode is READ and
that queue is empty — delivers exactly one value into it.  Third conjunct:
the injection step touches no node other than `i`. -/
theorem tis_c7_host_injection (fuel : Nat) (m : Machine) (i j : Nat) (d : Dir) :
    processNode fuel m i = advanceNode fuel (injectOne m i) i
      ∧ (queueD (injectOne m i) i d = queueD m i d
          ∨ (modeD m i = Mode.read ∧ queueD m i d = []
              ∧ ∃ v, queueD (injectOne m i) i d = [v]))
      ∧ (j ≠ i → getN (injectOne m i) j = getN m j) := by
  refine ⟨rfl, ?_, ?_⟩
  · unfold injectOne
    cases hg : getN m i with
    | none =>
      left
      rfl
    | some n =>
      dsimp only
      by_cases hc : m.buffered i ≠ [] ∧ n.mode = Mode.read
      · rw [if_pos hc]
        cases hs : injectScan n.inputs (m.buffered i) with
        | none =>
          left
          rfl
        | some trip =>
          obtain ⟨d0, v, rest⟩ := trip
          have hempty : n.inputs d0 = [] := injectScan_src_empty _ _ _ _ _ hs
          have hget :
              getN { setN m i
                       { n with inputs := updInputs n.inputs d0 (n.inputs d0 ++ [v]) } with
                     buffered := fun i' => if i' = i then rest else m.buffered i' } i
                = some { n with inputs := updInputs n.inputs d0 (n.inputs d0 ++ [v]) } :=
            getN_setN_eq m i n _ hg
          by_cases hd : d = d0
          · subst hd
            right
            refine ⟨?_, ?_, v, ?_⟩
            · unfold modeD
              rw [hg]
              exact hc.2
            · unfold queueD
              rw [hg]
              exact hempty
            · unfold queueD
              rw [hget]
              simp [updInputs, hempty]
          · left
            unfold queueD
            rw [hget, hg]
            simp [updInputs, hd]
      · rw [if_neg hc]
        left
        rfl
  · intro hj
    unfold injectOne
    cases hg : getN m i with
    | none => rfl
    | some n =>
      dsimp only
      by_cases hc : m.buffered i ≠ [] ∧ n.mode = Mode.read
      · rw [if_pos hc]
        cases hs : injectScan n.inputs (m.buffered i) with
        | none => rfl
        | some trip =>
          obtain ⟨d0, v, rest⟩ := trip
          exact getN_setN_ne m i j _ (Ne.symm hj)
      · rw [if_neg hc]

/-- A node in READ mode (blocked on LEFT) with an empty UP queue and a
buffered host value 5 for UP. -/
def exInject : Machine :=
  { nodes :=
      [ { ops := [Op.mov (Src.port Dir.left) Dst.acc],
          iptr := 0, next_iptr := 1,
          mode_stack := [Mode.read, Mode.run, Mode.idle],
          exec := Exec.suspReadWait Dir.left (RCont.movK Dst.acc) } ],
    neighbors := fun _ _ => none,
    buffered := fun i => if i = 0 then [(Dir.up, [5])] else [] }

/-- Witness for C7 at `exInject` (`i = 0`, `j = 1`, `d = UP`): the value 5 is
injected into the empty UP queue of the READ-mode node. -/
theorem tis_c7_host_injection_witness :
    processNode 9 exInject 0 = advanceNode 9 (injectOne exInject 0) 0
      ∧ (queueD (injectOne exInject 0) 0 Dir.up = queueD exInject 0 Dir.up
          ∨ (modeD exInject 0 = Mode.read ∧ queueD exInject 0 Dir.up = []
              ∧ ∃ v, queueD (injectOne exInject 0) 0 Dir.up = [v]))
      ∧ ((1 : Nat) ≠ 0 → getN (injectOne exInject 0) 1 = getN exInject 1) :=
  tis_c7_host_injection 9 exInject 0 1 Dir.up

/-- A conditional jump whose condition is false at accumulator value `acc`
(the only handlers in `op_table` whose generator can finish with zero
yields). -/
def isFalseCondJump (op : Op) (acc : Int) : Prop :=
  match op with
  | Op.jez _ => acc ≠ 0
  | Op.jnz _ => acc = 0
  | Op.jgz _ => ¬ acc > 0
  | Op.jlz _ => ¬ acc < 0
  | _ => False

/-- The source operand does not fault in `_read_src`: it is not `BAK` (the
assertion), not `NIL` (the unbound global), and not `LAST` with
`_last_port_dir` unset. -/
def srcOk (lp : Option Dir) : Src → Prop
  | Src.nil => False
  | Src.bak => False
  | Src.lastPort => lp ≠ none
  | _ => True

/-- The instruction does not fault on dispatch: its source operand is fine
and any referenced label exists (the loader guarantee P3). -/
def opOk (n : NodeSt) (op : Op) : Prop :=
  match op with
  | Op.add s => srcOk n.last_port_dir s
  | Op.sub s => srcOk n.last_port_dir s
  | Op.jro s => srcOk n.last_port_dir s
  | Op.mov s _ => srcOk n.last_port_dir s
  | Op.jmp l => lookupLabel n.labels l ≠ none
  | Op.jez l => lookupLabel n.labels l ≠ none
  | Op.jnz l => lookupLabel n.labels l ≠ none
  | Op.jgz l => lookupLabel n.labels l ≠ none
  | Op.jlz l => lookupLabel n.labels l ≠ none
  | _ => True

/-- C8 as amended: every dispatched instruction other than a conditional jump
whose condition is false parks at a suspension point belonging to that same
instruction before anything else is dispatched: dispatching from a node at
the top of its `run()` loop yields `DispRes.done`, and the node it leaves
behind has `iptr` equal to the index just fetched.  (A false conditional
jump instead yields no suspension at all, and the next instruction is
dispatched within the same scheduler advance — the counterexample.) -/
theorem tis_c8_amended (m : Machine) (i : Nat) (n : NodeSt) (op : Op) (fuel : Nat)
    (hn : getN m i = some n) (hx : n.exec = Exec.dispatch)
    (hop : n.ops.get? (fetchIdx n.next_iptr n.ops.length) = some op)
    (hnf : ¬ isFalseCondJump op n.acc) (hok : opOk n op) :
    ∃ m' n', dispatchOnce m i = DispRes.done m'
      ∧ advanceNode (fuel + 1) m i = some m'
      ∧ getN m' i = some n'
      ∧ n'.iptr = fetchIdx n.next_iptr n.ops.length := by
  have main : ∃ m' n', dispatchOnce m i = DispRes.done m'
      ∧ getN m' i = some n'
      ∧ n'.iptr = fetchIdx n.next_iptr n.ops.length := by
    simp only [dispatchOnce, hn, hop]
    cases op with
    | nop => exact ⟨_, _, rfl, getN_setN_eq m i n _ hn, rfl⟩
    | swp => exact ⟨_, _, rfl, getN_setN_eq m i n _ hn, rfl⟩
    | sav => exact ⟨_, _, rfl, getN_setN_eq m i n _ hn, rfl⟩
    | neg => exact ⟨_, _, rfl, getN_setN_eq m i n _ hn, rfl⟩
    | jmp l =>
      dsimp only
      simp only [opOk] at hok
      obtain ⟨t, ht⟩ := Option.ne_none_iff_exists'.mp hok
      rw [ht]
      exact ⟨_, _, rfl, getN_setN_eq m i n _ hn, rfl⟩
    | jez l =>
      dsimp only
      simp only [isFalseCondJump, not_not] at hnf
      simp only [opOk] at hok
      obtain ⟨t, ht⟩ := Option.ne_none_iff_exists'.mp hok
      rw [if_pos hnf, ht]
      exact ⟨_, _, rfl, getN_setN_eq m i n _ hn, rfl⟩
    | jnz l =>
      dsimp only
      simp only [isFalseCondJump] at hnf
      simp only [opOk] at hok
      obtain ⟨t, ht⟩ := Option.ne_none_iff_exists'.mp hok
      rw [if_neg hnf, ht]
      exact ⟨_, _, rfl, getN_setN_eq m i n _ hn, rfl⟩
    | jgz l =>
      dsimp only
      simp only [isFalseCondJump, not_not] at hnf
      simp only [opOk] at hok
      obtain ⟨t, ht⟩ := Option.ne_none_iff_exists'.mp hok
      rw [if_pos hnf, ht]
      exact ⟨_, _, rfl, getN_setN_eq m i n _ hn, rfl⟩
    | jlz l =>
      dsimp only
      simp only [isFalseCondJump, not_not] at hnf
      simp only [opOk] at hok
      obtain ⟨t, ht⟩ := Option.ne_none_iff_exists'.mp hok
      rw [if_pos hnf, ht]
      exact ⟨_, _, rfl, getN_setN_eq m i n _ hn, rfl⟩
    | add s =>
      dsimp only
      simp only [opOk] at hok
      cases s with
      | nil => exact hok.elim
      | bak => exact hok.elim
      | acc => exact ⟨_, _, rfl, getN_setN_eq m i n _ hn, rfl⟩
      | lit v => exact ⟨_, _, rfl, getN_setN_eq m i n _ hn, rfl⟩
      | port d =>
        dsimp only [enterRead, readPort]
        cases n.inputs d <;>
          exact ⟨_, _, rfl, getN_setN_eq m i n _ hn, rfl⟩
      | any =>
        dsimp only [enterRead]
        cases hsc : scanAny n.inputs with
        | none => exact ⟨_, _, rfl, getN_setN_eq m i n _ hn, rfl⟩
        | some trip =>
          obtain ⟨d0, v0, f0⟩ := trip
          exact ⟨_, _, rfl, getN_setN_eq m i n _ hn, rfl⟩
      | lastPort =>
        simp only [srcOk] at hok
        obtain ⟨d0, hd0⟩ := Option.ne_none_iff_exists'.mp hok
        dsimp only [enterRead]
        rw [hd0]
        dsimp only [readPort]
        cases n.inputs d0 <;>
          exact ⟨_, _, rfl, getN_setN_eq m i n _ hn, rfl⟩
    | sub s =>
      dsimp only
      simp only [opOk] at hok
      cases s with
      | nil => exact hok.elim
      | bak => exact hok.elim
      | acc => exact ⟨_, _, rfl, getN_setN_eq m i n _ hn, rfl⟩
      | lit v => exact ⟨_, _, rfl, getN_setN_eq m i n _ hn, rfl⟩
      | port d =>
        dsimp only [enterRead, readPort]
        cases n.inputs d <;>
          exact ⟨_, _, rfl, getN_setN_eq m i n _ hn, rfl⟩
      | any =>
        dsimp only [enterRead]
        cases hsc : scanAny n.inputs with
        | none => exact ⟨_, _, rfl, getN_setN_eq m i n _ hn, rfl⟩
        | some trip =>
          obtain ⟨d0, v0, f0⟩ := trip
          exact ⟨_, _, rfl, getN_setN_eq m i n _ hn, rfl⟩
      | lastPort =>
        simp only [srcOk] at hok
        obtain ⟨d0, hd0⟩ := Option.ne_none_iff_exists'.mp hok
        dsimp only [enterRead]
        rw [hd0]
        dsimp only [readPort]
        cases n.inputs d0 <;>
          exact ⟨_, _, rfl, getN_setN_eq m i n _ hn, rfl⟩
    | jro s =>
      dsimp only
      simp only [opOk] at hok
      cases s with
      | nil => exact hok.elim
      | bak => exact hok.elim
      | acc => exact ⟨_, _, rfl, getN_setN_eq m i n _ hn, rfl⟩
      | lit v => exact ⟨_, _, rfl, getN_setN_eq m i n _ hn, rfl⟩
      | port d =>
        dsimp only [enterRead, readPort]
        cases n.inputs d <;>
          exact ⟨_, _, rfl, getN_setN_eq m i n _ hn, rfl⟩
      | any =>
        dsimp only [enterRead]
        cases hsc : scanAny n.inputs with
        | none => exact ⟨_, _, rfl, getN_setN_eq m i n _ hn, rfl⟩
        | some trip =>
          obtain ⟨d0, v0, f0⟩ := trip
          exact ⟨_, _, rfl, getN_setN_eq m i n _ hn, rfl⟩
      | lastPort =>
        simp only [srcOk] at hok
        obtain ⟨d0, hd0⟩ := Option.ne_none_iff_exists'.mp hok
        dsimp only [enterRead]
        rw [hd0]
        dsimp only [readPort]
        cases n.inputs d0 <;>
          exact ⟨_, _, rfl, getN_setN_eq m i n _ hn, rfl⟩
    | mov s dst =>
      dsimp only
      simp only [opOk] at hok
      cases s with
      | nil => exact hok.elim
      | bak => exact hok.elim
      | acc => exact ⟨_, _, rfl, getN_setN_eq m i n _ hn, rfl⟩
      | lit v => exact ⟨_, _, rfl, getN_setN_eq m i n _ hn, rfl⟩
      | port d =>
        dsimp only [enterRead, readPort]
        cases n.inputs d <;>
          exact ⟨_, _, rfl, getN_setN_eq m i n _ hn, rfl⟩
      | any =>
        dsimp only [enterRead]
        cases hsc : scanAny n.inputs with
        | none => exact ⟨_, _, rfl, getN_setN_eq m i n _ hn, rfl⟩
        | some trip =>
          obtain ⟨d0, v0, f0⟩ := trip
          exact ⟨_, _, rfl, getN_setN_eq m i n _ hn, rfl⟩
      | lastPort =>
        simp only [srcOk] at hok
        obtain ⟨d0, hd0⟩ := Option.ne_none_iff_exists'.mp hok
        dsimp only [enterRead]
        rw [hd0]
        dsimp only [readPort]
        cases n.inputs d0 <;>
          exact ⟨_, _, rfl, getN_setN_eq m i n _ hn, rfl⟩
  obtain ⟨m', n', h1, h3, h4⟩ := main
  refine ⟨m', n', h1, ?_, h3, h4⟩
  have h5 : advanceNode (fuel + 1) m i = doDispatch (fuel + 1) m i := by
    simp only [advanceNode, hn, hx]
  rw [h5]
  simp only [doDispatch, h1]

/-- A freshly loaded solo node about to dispatch `NOP`. -/
def exNopNode : NodeSt := { ops := [Op.nop] }

/-- Machine around `exNopNode`. -/
def exNop : Machine := soloM exNopNode

/-- Witness for C8's amended theorem: dispatching `NOP` parks at a suspension
of the `NOP` itself (`iptr = 0`). -/
theorem tis_c8_amended_witness :
    ∃ m' n', dispatchOnce exNop 0 = DispRes.done m'
      ∧ advanceNode (8 + 1) exNop 0 = some m'
      ∧ getN m' 0 = some n'
      ∧ n'.iptr = fetchIdx exNopNode.next_iptr exNopNode.ops.length :=
  tis_c8_amended exNop 0 exNopNode Op.nop 8 rfl rfl rfl
    (by simp [isFalseCondJump]) (by simp [opOk])

/-- A node with no program loaded. -/
def exEmptyNode : NodeSt := {}

/-- Machine around `exEmptyNode`. -/
def exUnloaded : Machine := soloM exEmptyNode

/-- C10: the scheduler advances only loaded nodes, and for a loaded node the
fetch never fails.  First conjunct: a node with an empty program is not in
`loadedIds`, the list `TIS.run` builds its `node_runs` from — so it is never
stepped (third conjunct: a cycle is, definitionally, a fold of the
inject-and-advance body over exactly `loadedIds`).  Second conjunct: for a
loaded node, the fetch index after the wraparound reset lies inside the
program, so `get_next_op`'s indexing succeeds. -/
theorem tis_c10_scheduler_safety (m : Machine) (i : Nat) (n : NodeSt) (fuel : Nat)
    (h : getN m i = some n) :
    (n.ops = [] → i ∉ loadedIds m)
      ∧ (n.ops ≠ [] →
          fetchIdx n.next_iptr n.ops.length < n.ops.length
            ∧ ∃ op, n.ops.get? (fetchIdx n.next_iptr n.ops.length) = some op)
      ∧ cycle fuel m = cycleAux fuel m (loadedIds m) := by
  refine ⟨?_, ?_, rfl⟩
  · intro hemp hmem
    unfold loadedIds at hmem
    rw [List.mem_filter] at hmem
    obtain ⟨_, hp⟩ := hmem
    rw [h] at hp
    simp [NodeSt.loaded, hemp] at hp
  · intro hne
    have hlen : 0 < n.ops.length := List.length_pos.mpr hne
    have hlt : fetchIdx n.next_iptr n.ops.length < n.ops.length := by
      unfold fetchIdx
      split
    
      · exact hlen
      · omega
    refine ⟨hlt, ?_⟩
    cases hg : n.ops.get? (fetchIdx n.next_iptr n.ops.length) with
    | none =>
      have := List.get?_eq_none.mp hg
      omega
    | some op => exact ⟨op, rfl⟩

/-- Witness for C10: the unloaded `exEmptyNode` is not collected by the
scheduler, and the loaded `exNopNode`'s fetch stays in bounds. -/
theorem tis_c10_scheduler_safety_witness :
    (0 ∉ loadedIds exUnloaded)
      ∧ (fetchIdx exNopNode.next_iptr exNopNode.ops.length < exNopNode.ops.length
          ∧ ∃ op, exNopNode.ops.get? (fetchIdx exNopNode.next_iptr exNopNode.ops.length)
              = some op) :=
  ⟨(tis_c10_scheduler_safety exUnloaded 0 exEmptyNode 1 rfl).1 rfl,
   (tis_c10_scheduler_safety exNop 0 exNopNode 1 rfl).2.1 (by simp [exNopNode])⟩
